import Mathlib

/-!
# Verification of the Battleship server (src/server.py, src/battleship.py)

Shallow embedding of the packet codec, the board model, the lobby
classification logic and the turn-engine loop, followed by theorems
settling the frozen claims about them.

Conventions:
* Python `bytes` are embedded as `List Nat` with entries below 256.
* Python `str` payloads of the codec are embedded as `List Nat` of Unicode
  code points, so that the Unicode behaviour of `str.isalpha` is visible.
  The character-class predicates (`pyIsAlpha`, `pyIsUpper`) are modelled
  exactly for code points below 0x100 (ASCII + Latin-1, per the Unicode
  tables Python consults); all theorems about the codec stay inside that
  range.
* Mutable state is passed explicitly; a Python exception is an
  `Except.error` carrying the message, paired with the state as mutated so
  far when the source can have mutated before raising.
-/

namespace Battleship

/-! ## Packet codec (src/server.py) -/

/-- `str.isalpha` for a single code point, exact for code points < 0x100
(Latin-1 letters per the Unicode category tables); code points ≥ 0x100 are
outside the modelled domain and mapped to `false`. -/
def pyIsAlpha (c : Nat) : Bool :=
  (65 ≤ c && c ≤ 90) || (97 ≤ c && c ≤ 122) ||
  c == 0xAA || c == 0xB5 || c == 0xBA ||
  (0xC0 ≤ c && c ≤ 0xD6) || (0xD8 ≤ c && c ≤ 0xF6 && c != 0xF7) ||
  (0xF8 ≤ c && c ≤ 0xFF)

/-- `str.isupper` for a single code point, exact for code points < 0x100. -/
def pyIsUpper (c : Nat) : Bool :=
  (65 ≤ c && c ≤ 90) || (0xC0 ≤ c && c ≤ 0xD6) || (0xD8 ≤ c && c ≤ 0xDE)

/-- One character of `caesar_encrypt` (src/server.py lines 549-576):
alphabetic characters are shifted by `shift` modulo 26 relative to the
case base; everything else is unchanged.  Python's `%` on ints agrees with
`Int.emod` for the positive modulus 26. -/
def caesarChar (shift : Int) (c : Nat) : Nat :=
  if pyIsAlpha c then
    let base : Int := if pyIsUpper c then 65 else 97
    (((c : Int) - base + shift) % 26 + base).toNat
  else c

/-- `caesar_encrypt(text, shift)` over a list of code points. -/
def caesar_encrypt (text : List Nat) (shift : Int) : List Nat :=
  text.map (caesarChar shift)

/-- `caesar_decrypt(text, shift)` = `caesar_encrypt(text, -shift)`
(src/server.py lines 578-592). -/
def caesar_decrypt (text : List Nat) (shift : Int) : List Nat :=
  caesar_encrypt text (-shift)

/-- UTF-8 encoding of one Unicode scalar value (used by
`encrypted_payload.encode('utf-8')`). -/
def utf8EncodeChar (c : Nat) : List Nat :=
  if c < 0x80 then [c]
  else if c < 0x800 then [0xC0 + c / 64, 0x80 + c % 64]
  else if c < 0x10000 then
    [0xE0 + c / 4096, 0x80 + c / 64 % 64, 0x80 + c % 64]
  else
    [0xF0 + c / 262144, 0x80 + c / 4096 % 64, 0x80 + c / 64 % 64, 0x80 + c % 64]

/-- `str.encode('utf-8')` over a list of code points. -/
def utf8Encode (s : List Nat) : List Nat :=
  s.flatMap utf8EncodeChar

/-- Is `b` a UTF-8 continuation byte (0x80-0xBF)? -/
def utf8IsCont (b : Nat) : Bool := 0x80 ≤ b && b < 0xC0

/-- One byte of strict UTF-8 decoding, as a DFA step.  The state is
`none` on failure, else `(pending, len, acc, out)`: `pending` continuation
bytes still expected, `len` the declared sequence length, `acc` the code
point accumulated so far and `out` the code points decoded so far.
Invalid lead bytes (0x80-0xC1: stray continuation or overlong 2-byte
lead; ≥ 0xF5: beyond U+10FFFF) fail immediately; overlong 3/4-byte forms
and surrogates are rejected when the sequence completes. -/
def utf8Step (st : Option (Nat × Nat × Nat × List Nat)) (b : Nat) :
    Option (Nat × Nat × Nat × List Nat) :=
  match st with
  | none => none
  | some (pending, len, acc, out) =>
    if pending = 0 then
      if b < 0x80 then some (0, 1, 0, out ++ [b])
      else if b < 0xC2 then none
      else if b < 0xE0 then some (1, 2, b - 0xC0, out)
      else if b < 0xF0 then some (2, 3, b - 0xE0, out)
      else if b < 0xF5 then some (3, 4, b - 0xF0, out)
      else none
    else
      if utf8IsCont b then
        let acc2 := acc * 64 + (b - 0x80)
        if pending = 1 then
          if (len == 2 && 0x80 ≤ acc2) ||
             (len == 3 && 0x800 ≤ acc2 && !(0xD800 ≤ acc2 && acc2 < 0xE000)) ||
             (len == 4 && 0x10000 ≤ acc2 && acc2 < 0x110000) then
            some (0, 1, 0, out ++ [acc2])
          else none
        else some (pending - 1, len, acc2, out)
      else none

/-- `bytes.decode('utf-8')`: strict UTF-8 decoding, rejecting truncated
sequences, bad continuation bytes, overlong forms, surrogates and values
above 0x10FFFF (a failure is Python's `UnicodeDecodeError`). -/
def utf8Decode (l : List Nat) : Option (List Nat) :=
  match l.foldl utf8Step (some (0, 1, 0, [])) with
  | some (0, _, _, out) => some out
  | _ => none

/-- One bit-step of the reflected CRC-32 computation used by `zlib.crc32`. -/
def crcStep (c : Nat) : Nat :=
  if c % 2 == 1 then (c / 2) ^^^ 0xEDB88320 else c / 2

/-- `zlib.crc32(data)`: the standard reflected CRC-32 with initial and
final value 0xFFFFFFFF. -/
def crc32 (data : List Nat) : Nat :=
  (data.foldl (fun c b => crcStep^[8] (c ^^^ b)) 0xFFFFFFFF) ^^^ 0xFFFFFFFF

/-- `struct.pack('!H', n)`: two big-endian bytes (callers must have
`n < 2 ^ 16`; Python raises `struct.error` otherwise). -/
def pack2 (n : Nat) : List Nat := [n / 256, n % 256]

/-- `struct.pack('!I', n)`: four big-endian bytes (callers must have
`n < 2 ^ 32`). -/
def pack4 (n : Nat) : List Nat :=
  [n / 16777216, n / 65536 % 256, n / 256 % 256, n % 256]

/-- `struct.unpack('!I', bs)`: requires exactly four bytes, else
`struct.error`. -/
def unpack4 (bs : List Nat) : Option Nat :=
  match bs with
  | [a, b, c, d] => some (((a * 256 + b) * 256 + c) * 256 + d)
  | _ => none

/-- `struct.unpack('!H B I', bs)`: requires exactly seven bytes, else
`struct.error`; yields (sequence_number, packet_type, payload_length). -/
def unpackHBI (bs : List Nat) : Option (Nat × Nat × Nat) :=
  match bs with
  | [a, b, c, d, e, f, g] =>
    some (a * 256 + b, c, ((d * 256 + e) * 256 + f) * 256 + g)
  | _ => none

/-- `create_packet(sequence_number, packet_type, payload)`
(src/server.py lines 66-92): Caesar-encrypt the payload, UTF-8 encode it,
build the 7-byte header, append the CRC32 of header+payload, then the
payload bytes. -/
def create_packet (sequence_number packet_type : Nat) (payload : List Nat) :
    List Nat :=
  let encrypted_payload := caesar_encrypt payload 13
  let payload_bytes := utf8Encode encrypted_payload
  let payload_length := payload_bytes.length
  let header := pack2 sequence_number ++ packet_type :: pack4 payload_length
  let checksum := crc32 (header ++ payload_bytes)
  header ++ pack4 checksum ++ payload_bytes

/-- The distinct Python exceptions that can abort `parse_packet`'s body
(all are caught by its `except Exception` clause).  There is no
"malformed length" failure: the declared payload length is never compared
with the bytes present. -/
inductive ParseError where
  | structError      -- struct.unpack on a slice of the wrong size
  | checksumMismatch -- the explicit ValueError on CRC mismatch
  | unicodeError     -- bytes.decode('utf-8') failure
  deriving DecidableEq, Repr

/-- The body of `parse_packet(packet)` (src/server.py lines 119-146),
before the `except Exception` clause collapses every failure to `None`.
Order of operations follows the source: unpack the checksum slice, verify
the CRC over `packet[:7] + packet[11:]`, unpack the header, UTF-8 decode
and Caesar-decrypt the payload. -/
def parse_packetE (packet : List Nat) :
    Except ParseError (Nat × Nat × List Nat) :=
  let header := packet.take 7
  match unpack4 ((packet.drop 7).take 4) with
  | none => .error .structError
  | some checksum =>
    let encrypted_payload := packet.drop 11
    let computed_checksum := crc32 (header ++ encrypted_payload)
    if checksum ≠ computed_checksum then .error .checksumMismatch
    else
      match unpackHBI header with
      | none => .error .structError
      | some (sequence_number, packet_type, _payload_length) =>
        match utf8Decode encrypted_payload with
        | none => .error .unicodeError
        | some decoded =>
          .ok (sequence_number, packet_type, caesar_decrypt decoded 13)

/-- `parse_packet(packet)`: the `try/except` wrapper maps every internal
exception to `None`. -/
def parse_packet (packet : List Nat) : Option (Nat × Nat × List Nat) :=
  (parse_packetE packet).toOption

/-! ## Board model (src/battleship.py)

Cells are the source's characters: `'.'` water, `'S'` ship, `'X'` hit,
`'o'` miss.  Python list indices are `Int`: a negative index `i` with
`-len ≤ i` wraps to `len + i` (no `IndexError`), which is observable in
`fire_at` and `can_place_ship`. -/

/-- `BOARD_SIZE` (src/battleship.py line 5). -/
def BOARD_SIZE : Nat := 10

/-- Normalise a Python list index: negative indices wrap once from the
end; `none` is an `IndexError`. -/
def pyNorm (len : Nat) (i : Int) : Option Nat :=
  let j : Int := if i < 0 then i + len else i
  if 0 ≤ j ∧ j < (len : Int) then some j.toNat else none

/-- Python `l[i]` for reading. -/
def pyIdx {α : Type} (l : List α) (i : Int) : Option α :=
  (pyNorm l.length i).bind fun j => l[j]?

/-- Python `l[i] = v`.  In the source every write follows a successful
read of the same index, so the out-of-range case (which would raise) is
modelled as a no-op. -/
def pySet {α : Type} (l : List α) (i : Int) (v : α) : List α :=
  match pyNorm l.length i with
  | some j => l.set j v
  | none => l

/-- Python `g[r][c] = v` on a grid. -/
def pySet2 {α : Type} (g : List (List α)) (r c : Int) (v : α) :
    List (List α) :=
  match pyNorm g.length r with
  | some j =>
    match g[j]? with
    | some row => g.set j (pySet row c v)
    | none => g
  | none => g

/-- One ship entry of `placed_ships`: `{'name': ..., 'positions': ...}`.
Positions are the Python ints stored at placement time, so `Int × Int`. -/
structure Ship where
  name : String
  positions : List (Int × Int)
  deriving Repr, DecidableEq

/-- The `Board` class state (src/battleship.py lines 29-36). -/
structure Board where
  size : Nat
  hidden_grid : List (List Char)
  display_grid : List (List Char)
  placed_ships : List Ship
  deriving Repr, DecidableEq

/-- `Board.__init__(size)`: water-filled grids, no ships. -/
def Board.init (size : Nat) : Board :=
  { size := size
    hidden_grid := List.replicate size (List.replicate size '.')
    display_grid := List.replicate size (List.replicate size '.')
    placed_ships := [] }

/-- `self.hidden_grid[row][col]` with Python index semantics; `none` is
an `IndexError`. -/
def Board.cellAt (b : Board) (row col : Int) : Option Char :=
  (pyIdx b.hidden_grid row).bind fun r => pyIdx r col

/-- Well-formedness produced by `__init__` and preserved by the class:
both grids are `size × size`. -/
def Board.WF (b : Board) : Prop :=
  b.hidden_grid.length = b.size ∧
  (∀ r ∈ b.hidden_grid, r.length = b.size) ∧
  b.display_grid.length = b.size ∧
  (∀ r ∈ b.display_grid, r.length = b.size)

/-- The body of `_mark_hit_and_check_sunk(row, col)` (src/battleship.py
lines 213-225): find the first ship holding the position, remove it,
report the name if that ship's position set became empty; the `break`
leaves later ships untouched. -/
def markHit : List Ship → Int × Int → List Ship × Option String
  | [], _ => ([], none)
  | s :: rest, pos =>
    if pos ∈ s.positions then
      let ps := s.positions.erase pos
      (⟨s.name, ps⟩ :: rest, if ps.length = 0 then some s.name else none)
    else
      let (rest2, r) := markHit rest pos
      (s :: rest2, r)

/-- `Board.fire_at(row, col)` (src/battleship.py lines 178-211).  The
result is the `(result, sunk_ship_name)` pair; an `Except.error` is the
`ValueError` the method raises (out-of-bounds read, or unexpected cell
value), paired with the board state at the moment of the raise (both
raises happen before any mutation). -/
def Board.fire_at (b : Board) (row col : Int) :
    Except String (String × Option String) × Board :=
  match b.cellAt row col with
  | none => (.error "Firing coordinate out of bounds.", b)
  | some cell =>
    if cell = 'S' then
      let b1 := { b with hidden_grid := pySet2 b.hidden_grid row col 'X'
                         display_grid := pySet2 b.display_grid row col 'X' }
      let (ships2, sunk) := markHit b1.placed_ships (row, col)
      let b2 := { b1 with placed_ships := ships2 }
      match sunk with
      | some name => (.ok ("hit", some name), b2)
      | none => (.ok ("hit", none), b2)
    else if cell = '.' then
      (.ok ("miss", none),
        { b with hidden_grid := pySet2 b.hidden_grid row col 'o'
                 display_grid := pySet2 b.display_grid row col 'o' })
    else if cell = 'X' ∨ cell = 'o' then
      (.ok ("already_shot", none), b)
    else
      (.error "Unexpected cell value.", b)

/-- The body of the per-cell loop of `can_place_ship`: read each cell of
the run, fail (`IndexError`) on an invalid index, answer `false` on the
first non-water cell. -/
def Board.checkRun (b : Board) : List (Int × Int) → Except String Bool
  | [] => .ok true
  | (r, c) :: rest =>
    match b.cellAt r c with
    | none => .error "IndexError"
    | some ch => if ch ≠ '.' then .ok false else b.checkRun rest

/-- The cells of the run of `n` cells from `(row, col)` in the given
orientation (0 = horizontal, anything else = vertical, as in the
source's `if orientation == 0 ... else ...`). -/
def runCells (row col : Int) (n : Nat) (orientation : Nat) :
    List (Int × Int) :=
  if orientation = 0 then (List.range n).map fun k : Nat => (row, col + (k : Int))
  else (List.range n).map fun k : Nat => (row + (k : Int), col)

/-- `Board.can_place_ship(row, col, ship_size, orientation)`
(src/battleship.py lines 141-159).  Returns `false` early when the run
would overrun the far edge (`col + ship_size > size` horizontally,
`row + ship_size > size` vertically); otherwise scans the run, where an
out-of-range index raises (`Except.error`) — the source has no guard on
`row` horizontally, nor on `col` vertically, and negative indices wrap. -/
def Board.can_place_ship (b : Board) (row col : Int) (ship_size : Nat)
    (orientation : Nat) : Except String Bool :=
  if orientation = 0 then
    if col + (ship_size : Int) > (b.size : Int) then .ok false
    else b.checkRun (runCells row col ship_size 0)
  else
    if row + (ship_size : Int) > (b.size : Int) then .ok false
    else b.checkRun (runCells row col ship_size 1)

/-- `Board.all_ships_sunk()` (src/battleship.py lines 227-234): `False`
as soon as some ship has a nonempty position set, else `True`. -/
def Board.all_ships_sunk (b : Board) : Bool :=
  b.placed_ships.all fun s => s.positions.length = 0

/-- The claim's condition for `can_place_ship` (spec §4.4): every cell of
the full run of `shipLength` cells from `(row, col)` lies within the grid
bounds and is currently Water.  Stated from the spec's words, for
comparison with the source's `can_place_ship`. -/
def canPlaceSpec (b : Board) (row col : Int) (ship_size : Nat)
    (orientation : Nat) : Bool :=
  (runCells row col ship_size orientation).all fun rc =>
    0 ≤ rc.1 && rc.1 < (b.size : Int) && 0 ≤ rc.2 && rc.2 < (b.size : Int) &&
    b.cellAt rc.1 rc.2 == some '.'

/-! ## Lobby classification (src/server.py, handle_lobby_connections)

String predicates are modelled over ASCII, which covers every string the
protocol compares against. -/

/-- `str.isdigit()` over ASCII: nonempty and all characters '0'-'9'. -/
def pyIsDigitStr (s : String) : Bool :=
  s.length != 0 && s.data.all fun ch => '0' ≤ ch && ch ≤ '9'

/-- `int(s)` on a digit string. -/
def strToNat (s : String) : Nat :=
  s.data.foldl (fun acc ch => acc * 10 + (ch.toNat - 48)) 0

/-- The lobby-relevant shared state: the user ids present in
`disconnected_players`, and the `token` field of each `active_players`
entry. -/
structure LobbyState where
  disconnected_players : List Nat
  active_tokens : List (Nat × String)

/-- `active_players.get(user_id, {}).get("token")`. -/
def lookupToken (st : LobbyState) (uid : Nat) : Option String :=
  (st.active_tokens.find? fun pr => pr.1 == uid).map fun pr => pr.2

/-- What one iteration of `handle_lobby_connections` does with the
accepted connection. -/
inductive LobbyAction where
  | dropNoPacket            -- a receive failed: log, close, continue
  | rejectClose             -- "Invalid session token. Reconnection denied." + close
  | startResume (user_id : Nat)  -- valid token: resume_game thread started
  | enqueueNew (user_id : Nat)   -- added to player_queue
  | addSpectator
  | invalidInputClose
  deriving DecidableEq, Repr

/-- One iteration of the `handle_lobby_connections` accept loop
(src/server.py lines 304-362), as a function of the replies received:
`reply` is the classification packet's payload (`none` when
`receive_packet` failed), `tokenReply` the session-token packet's payload
(consulted only on the reconnection path).  `next_id` is the current
`unique_id_counter`. -/
def classifyConnection (st : LobbyState) (next_id : Nat)
    (reply : Option String) (tokenReply : Option String) : LobbyAction :=
  match reply with
  | none => .dropNoPacket
  | some user_input =>
    if pyIsDigitStr user_input ∧ strToNat user_input ∈ st.disconnected_players then
      match tokenReply with
      | none => .dropNoPacket
      | some session_token =>
        match lookupToken st (strToNat user_input) with
        | some tok =>
          if session_token = tok then .startResume (strToNat user_input)
          else .rejectClose
        | none => .rejectClose  -- expected token is None; a str never equals None
    else if user_input.toLower = "new" ∨ user_input.toLower = "n" then
      .enqueueNew next_id
    else if user_input.toLower = "spectator" ∨ user_input.toLower = "s" then
      .addSpectator
    else .invalidInputClose

/-! ## Coordinate parsing and the turn engine (src/battleship.py) -/

/-- Python's ASCII whitespace, for `str.strip()`. -/
def pyIsSpace (c : Char) : Bool :=
  c = ' ' ∨ c = '\t' ∨ c = '\n' ∨ c = '\r' ∨ c = '\x0b' ∨ c = '\x0c'

/-- `str.strip()` over ASCII whitespace. -/
def pyStrip (s : String) : String :=
  ⟨((s.data.dropWhile pyIsSpace).reverse.dropWhile pyIsSpace).reverse⟩

/-- `parse_coordinate(coord_str)` (src/battleship.py lines 276-305) over
ASCII input: strip and uppercase, take the leading character as the row
letter and the rest as the column digits, validate both, then bounds-check
the zero-based pair.  Every failure — including the `IndexError` on an
empty string and the quirky `not int(col_digits.isdigit())` test — is
re-raised as a `ValueError`, modelled as `Except.error`.  The column can
be -1 before the bounds check (input like "A0"), hence `Int`. -/
def parse_coordinate (coord_str : String) : Except String (Int × Int) :=
  let s := (pyStrip coord_str).toUpper
  match s.data with
  | [] => .error "Failed to parse coordinate: empty string"
  | row_letter :: col_digits =>
    if row_letter < 'A' ∨ row_letter > Char.ofNat (65 + BOARD_SIZE - 1) then
      .error "Invalid row letter"
    else if ¬(col_digits ≠ [] ∧ (col_digits.all fun ch => '0' ≤ ch && ch ≤ '9')) ∨
        col_digits.length < 1 ∨ col_digits.length > 2 then
      .error "Invalid format. Must be a letter followed by a number"
    else
      let row : Int := (row_letter.toNat : Int) - 65
      let col : Int :=
        ((col_digits.foldl (fun acc ch => acc * 10 + (ch.toNat - 48)) 0 : Nat) : Int) - 1
      if row < 0 ∨ row ≥ (BOARD_SIZE : Int) ∨ col < 0 ∨ col ≥ (BOARD_SIZE : Int) then
        .error "Coordinate out of bounds."
      else .ok (row, col)

/-- How the `while game_running` loop of `run_multi_player_game_online`
terminates. -/
inductive GameOutcome where
  | forfeit (p : Nat)      -- "Player p forfeited the game due to inactivity."
  | win (p : Nat)          -- "Player p wins! All ships are sunk."
  | noReconnect (p : Nat)  -- "Game over, Player p did not reconnect."
  deriving DecidableEq, Repr

/-- Whether the engine is inside the normal loop or blocked in
`wait_for_reconnection` for player `p` (after a quit or connection
reset). -/
inductive EnginePhase where
  | playing
  | reconnecting (p : Nat)
  deriving DecidableEq, Repr

/-- The loop state of `run_multi_player_game_online`
(src/battleship.py lines 352-684): the current turn, the two
`timeout_counts` entries, the four boards, the phase, and the reason the
loop has ended (if it has). -/
structure GameSt where
  current_turn : Nat
  timeout1 : Nat
  timeout2 : Nat
  board1 : Board
  board2 : Board
  freshBoard1 : Board
  freshBoard2 : Board
  phase : EnginePhase
  outcome : Option GameOutcome
  deriving Repr

/-- One interaction consumed by the engine loop: the current player's
`receive_packet` result (either `None` or a packet triple, whose payload
the code defensively re-checks against `None`), or the result of
`wait_for_reconnection`. -/
inductive GEvent where
  | recv (packet : Option (Nat × Nat × Option String))
  | reconnect (conn : Bool)

/-- The `not packet` timeout path of Player 1 (src/battleship.py lines
436-448), also taken by the `guess is None` re-check (lines 452-464):
bump `timeout_counts[1]`; at 1 skip the turn (switch to Player 2), at 2
end the game with Player 1's forfeit, otherwise just re-loop. -/
def timeoutPlayer1 (s : GameSt) : GameSt :=
  let t := s.timeout1 + 1
  if t = 1 then { s with timeout1 := t, current_turn := 2 }
  else if t = 2 then { s with timeout1 := t, outcome := some (.forfeit 1) }
  else { s with timeout1 := t }

/-- Player 2's `not packet` timeout path (lines 562-574). -/
def timeoutPlayer2 (s : GameSt) : GameSt :=
  let t := s.timeout2 + 1
  if t = 1 then { s with timeout2 := t, current_turn := 1 }
  else if t = 2 then { s with timeout2 := t, outcome := some (.forfeit 2) }
  else { s with timeout2 := t }

/-- Player 1's guess handling (src/battleship.py lines 466-508): empty
or all-whitespace input re-prompts with nothing changed; 'quit' raises
`ConnectionResetError`, caught by the disconnect handler (lines 510-550)
which saves state and waits for a reconnection; any other input first
resets Player 1's timeout counter, then parses the coordinate and fires
at board2.  An invalid coordinate or an 'already_shot' outcome re-prompts
without switching the turn; a hit or miss updates the firing display,
ends the game if all of Player 2's ships are sunk, and otherwise switches
the turn (line 679). -/
def guessPlayer1 (s : GameSt) (g : String) : GameSt :=
  if g = "" ∨ pyStrip g = "" then s
  else if g.toLower = "quit" then { s with phase := .reconnecting 1 }
  else
    let s0 := { s with timeout1 := 0 }
    match parse_coordinate g with
    | .error _ => s0
    | .ok (row, col) =>
      match s0.board2.fire_at row col with
      | (.error _, b2) => { s0 with board2 := b2 }
      | (.ok (result, _sunk), b2) =>
        let s1 := { s0 with board2 := b2 }
        if result = "already_shot" then s1
        else
          let s2 :=
            if result = "hit" then
              { s1 with freshBoard2 := { s1.freshBoard2 with
                  display_grid := pySet2 s1.freshBoard2.display_grid row col 'X' } }
            else if result = "miss" then
              { s1 with freshBoard2 := { s1.freshBoard2 with
                  display_grid := pySet2 s1.freshBoard2.display_grid row col 'o' } }
            else s1
          if b2.all_ships_sunk then { s2 with outcome := some (.win 1) }
          else { s2 with current_turn := 2 }

/-- Player 2's guess handling (lines 592-635), mirroring Player 1's. -/
def guessPlayer2 (s : GameSt) (g : String) : GameSt :=
  if g = "" ∨ pyStrip g = "" then s
  else if g.toLower = "quit" then { s with phase := .reconnecting 2 }
  else
    let s0 := { s with timeout2 := 0 }
    match parse_coordinate g with
    | .error _ => s0
    | .ok (row, col) =>
      match s0.board1.fire_at row col with
      | (.error _, b1) => { s0 with board1 := b1 }
      | (.ok (result, _sunk), b1) =>
        let s1 := { s0 with board1 := b1 }
        if result = "already_shot" then s1
        else
          let s2 :=
            if result = "hit" then
              { s1 with freshBoard1 := { s1.freshBoard1 with
                  display_grid := pySet2 s1.freshBoard1.display_grid row col 'X' } }
            else if result = "miss" then
              { s1 with freshBoard1 := { s1.freshBoard1 with
                  display_grid := pySet2 s1.freshBoard1.display_grid row col 'o' } }
            else s1
          if b1.all_ships_sunk then { s2 with outcome := some (.win 2) }
          else { s2 with current_turn := 1 }

/-- Player 1's branch of the loop body (lines 426-550), as a function of
the received packet. -/
def turnBranch1 (s : GameSt) (packet : Option (Nat × Nat × Option String)) :
    GameSt :=
  match packet with
  | none => timeoutPlayer1 s
  | some (_, _, none) => timeoutPlayer1 s  -- the `guess is None` re-check
  | some (_, _, some g) => guessPlayer1 s g

/-- Player 2's branch of the loop body (lines 552-677).  NOTE: the
source's `guess is None` path here (lines 576-590) increments
`timeout_counts[1]` and announces Player 1's timeout and forfeit — a
copy-paste slip faithfully reproduced below.  It is dead code: a packet
returned by `receive_packet` is `parse_packet`'s result, whose payload is
always a genuine string, never None. -/
def turnBranch2 (s : GameSt) (packet : Option (Nat × Nat × Option String)) :
    GameSt :=
  match packet with
  | none => timeoutPlayer2 s
  | some (_, _, none) => timeoutPlayer1 s  -- the slip: counts[1] is bumped
  | some (_, _, some g) => guessPlayer2 s g

/-- One iteration of the engine: nothing happens once `game_running` is
false; in the reconnection wait, a successful reconnection resets the
disconnected player's timeout counter and resumes the loop with the turn
unchanged, a failed one ends the game; otherwise the received packet is
handled by the current player's branch. -/
def step (s : GameSt) (e : GEvent) : GameSt :=
  if s.outcome.isSome then s
  else
    match s.phase with
    | .reconnecting p =>
      match e with
      | .reconnect true =>
        if p = 1 then { s with timeout1 := 0, phase := .playing }
        else { s with timeout2 := 0, phase := .playing }
      | .reconnect false => { s with outcome := some (.noReconnect p) }
      | .recv _ => s
    | .playing =>
      match e with
      | .reconnect _ => s
      | .recv packet =>
        if s.current_turn = 1 then turnBranch1 s packet
        else turnBranch2 s packet

/-- Iterated `step`. -/
def run (s : GameSt) : List GEvent → GameSt
  | [] => s
  | e :: es => run (step s e) es

/-- `timeout_counts[p]`. -/
def tcount (s : GameSt) (p : Nat) : Nat :=
  if p = 1 then s.timeout1 else s.timeout2

/-- A fire prompt is sent to player `p` at the top of a loop iteration
iff the game is running, the engine is in the normal loop and it is p's
turn (src/battleship.py lines 427-428 and 553-554). -/
def promptsPlayer (s : GameSt) (p : Nat) : Bool :=
  s.outcome.isNone && decide (s.phase = .playing) && decide (s.current_turn = p)

/-! ## Helper lemmas about the codec -/

theorem caesarChar_roundtrip : ∀ c < 128, caesarChar (-13) (caesarChar 13 c) = c := by
  decide

theorem caesarChar_lt_128 : ∀ c < 128, caesarChar 13 c < 128 := by decide

theorem caesar_encrypt_ascii {p : List Nat} (h : ∀ c ∈ p, c < 128) :
    ∀ c ∈ caesar_encrypt p 13, c < 128 := by
  intro c hc
  simp only [caesar_encrypt, List.mem_map] at hc
  obtain ⟨x, hx, rfl⟩ := hc
  exact caesarChar_lt_128 x (h x hx)

theorem caesar_decrypt_encrypt {p : List Nat} (h : ∀ c ∈ p, c < 128) :
    caesar_decrypt (caesar_encrypt p 13) 13 = p := by
  simp only [caesar_decrypt, caesar_encrypt, List.map_map]
  have step : ∀ c ∈ p, (caesarChar (-13) ∘ caesarChar 13) c = id c := by
    intro c hc
    exact caesarChar_roundtrip c (h c hc)
  rw [List.map_congr_left step, List.map_id]

theorem utf8Encode_ascii {p : List Nat} (h : ∀ c ∈ p, c < 128) :
    utf8Encode p = p := by
  induction p with
  | nil => rfl
  | cons a t ih =>
    have ha : a < 128 := h a (List.mem_cons_self a t)
    have ht := ih (fun c hc => h c (List.mem_cons_of_mem a hc))
    simp only [utf8Encode] at ht ⊢
    rw [List.flatMap_cons, ht]
    simp [utf8EncodeChar, ha]

theorem utf8Fold_ascii {p : List Nat} (h : ∀ c ∈ p, c < 128) :
    ∀ out : List Nat,
      p.foldl utf8Step (some (0, 1, 0, out)) = some (0, 1, 0, out ++ p) := by
  induction p with
  | nil => intro out; simp
  | cons a t ih =>
    intro out
    have ha : a < 128 := h a (List.mem_cons_self a t)
    have hstep : utf8Step (some (0, 1, 0, out)) a = some (0, 1, 0, out ++ [a]) := by
      simp [utf8Step, ha]
    rw [List.foldl_cons, hstep, ih (fun c hc => h c (List.mem_cons_of_mem a hc))]
    simp

theorem utf8Decode_ascii {p : List Nat} (h : ∀ c ∈ p, c < 128) :
    utf8Decode p = some p := by
  unfold utf8Decode
  rw [utf8Fold_ascii h []]
  rfl

theorem crcStep_lt {c : Nat} (h : c < 2 ^ 32) : crcStep c < 2 ^ 32 := by
  unfold crcStep
  split
  · exact Nat.xor_lt_two_pow (by omega) (by norm_num)
  · omega

theorem crcStep_iterate_lt (n : Nat) {c : Nat} (h : c < 2 ^ 32) :
    crcStep^[n] c < 2 ^ 32 := by
  induction n generalizing c with
  | zero => simpa using h
  | succ k ih => rw [Function.iterate_succ_apply]; exact ih (crcStep_lt h)

theorem crc_fold_lt (l : List Nat) : ∀ {c : Nat}, c < 2 ^ 32 → (∀ b ∈ l, b < 2 ^ 32) →
    l.foldl (fun c b => crcStep^[8] (c ^^^ b)) c < 2 ^ 32 := by
  induction l with
  | nil => intro c hc _; simpa using hc
  | cons a t ih =>
    intro c hc hb
    rw [List.foldl_cons]
    exact ih (crcStep_iterate_lt 8 (Nat.xor_lt_two_pow hc (hb a (List.mem_cons_self a t))))
      (fun b hbm => hb b (List.mem_cons_of_mem a hbm))

theorem crc32_lt {l : List Nat} (hb : ∀ b ∈ l, b < 2 ^ 32) : crc32 l < 2 ^ 32 := by
  unfold crc32
  exact Nat.xor_lt_two_pow (crc_fold_lt l (by norm_num) hb) (by norm_num)

theorem unpack4_pack4 {n : Nat} (h : n < 2 ^ 32) : unpack4 (pack4 n) = some n := by
  show some (((n / 16777216 * 256 + n / 65536 % 256) * 256 + n / 256 % 256) * 256 + n % 256)
    = some n
  exact congrArg some (by omega)

theorem unpackHBI_pack (s t l : Nat) :
    unpackHBI (pack2 s ++ t :: pack4 l) =
      some (s, t,
        ((l / 16777216 * 256 + l / 65536 % 256) * 256 + l / 256 % 256) * 256 + l % 256) := by
  show some (s / 256 * 256 + s % 256, t, _) = _
  have hsplit : s / 256 * 256 + s % 256 = s := by omega
  rw [hsplit]

theorem header_length (s t l : Nat) : (pack2 s ++ t :: pack4 l).length = 7 := by
  simp [pack2, pack4]

theorem frame_slices (header mid pb : List Nat) (h7 : header.length = 7)
    (h4 : mid.length = 4) :
    (header ++ mid ++ pb).take 7 = header ∧
    ((header ++ mid ++ pb).drop 7).take 4 = mid ∧
    (header ++ mid ++ pb).drop 11 = pb := by
  rw [List.append_assoc]
  refine ⟨List.take_left' h7, ?_, ?_⟩
  · rw [List.drop_left' h7]
    exact List.take_left' h4
  · have h11 : (header ++ (mid ++ pb)).drop 11 =
        ((header ++ (mid ++ pb)).drop 7).drop 4 := by
      rw [List.drop_drop]
    rw [h11, List.drop_left' h7, List.drop_left' h4]

theorem parse_mismatch (pkt : List Nat) (ck : Nat)
    (h4 : unpack4 ((pkt.drop 7).take 4) = some ck)
    (hne : ck ≠ crc32 (pkt.take 7 ++ pkt.drop 11)) :
    parse_packetE pkt = .error .checksumMismatch := by
  unfold parse_packetE
  rw [h4]
  simp [hne]

theorem parse_packetE_frame (s t l : Nat) (pb : List Nat)
    (hs : s < 65536) (ht : t < 2 ^ 32) (hl : l < 2 ^ 56)
    (hpb : ∀ b ∈ pb, b < 2 ^ 32) :
    parse_packetE ((pack2 s ++ t :: pack4 l) ++
        pack4 (crc32 ((pack2 s ++ t :: pack4 l) ++ pb)) ++ pb) =
      match utf8Decode pb with
      | none => .error .unicodeError
      | some d => .ok (s, t, caesar_decrypt d 13) := by
  have h7 : (pack2 s ++ t :: pack4 l).length = 7 := header_length s t l
  have hbytes : ∀ b ∈ (pack2 s ++ t :: pack4 l) ++ pb, b < 2 ^ 32 := by
    intro b hb
    simp only [pack2, pack4, List.cons_append, List.nil_append, List.mem_append,
      List.mem_cons, List.not_mem_nil, or_false] at hb
    rcases hb with h | h | h | h | h | h | h | h <;>
      first
      | exact hpb b h
      | (subst h; omega)
  have hcklt : crc32 ((pack2 s ++ t :: pack4 l) ++ pb) < 2 ^ 32 := crc32_lt hbytes
  have h4 : (pack4 (crc32 ((pack2 s ++ t :: pack4 l) ++ pb))).length = 4 := by simp [pack4]
  obtain ⟨ht7, hm4, hd11⟩ := frame_slices _ _ pb h7 h4
  unfold parse_packetE
  rw [ht7, hm4, hd11, unpack4_pack4 hcklt]
  simp only [ne_eq, not_true_eq_false, if_false, ite_false]
  rw [unpackHBI_pack s t l]

/-! ## Claim theorems about the packet codec (C1, C6, C8, C9) -/

set_option maxRecDepth 40000

/-- C1 (corrected, amended part): for every valid sequence number,
packet type and ASCII payload (all code points < 128, byte length in
range for the u32 length field), `parse_packet (create_packet ...)`
returns exactly the original triple — the Caesar transform on the payload
is undone by decoding.  (As stated over arbitrary string payloads the
claim is false: see the counterexample with the non-ASCII letter 'é'.) -/
theorem C1_roundtrip_ascii (s t : Nat) (p : List Nat)
    (hs : s < 65536) (ht : t < 256) (hp : ∀ c ∈ p, c < 128)
    (hlen : p.length < 2 ^ 32) :
    parse_packet (create_packet s t p) = some (s, t, p) := by
  have henc : ∀ c ∈ caesar_encrypt p 13, c < 128 := caesar_encrypt_ascii hp
  have hid : utf8Encode (caesar_encrypt p 13) = caesar_encrypt p 13 :=
    utf8Encode_ascii henc
  have hlen' : (caesar_encrypt p 13).length = p.length := List.length_map _ _
  unfold parse_packet create_packet
  simp only [hid]
  rw [parse_packetE_frame s t _ _ hs (by omega) (by rw [hlen']; omega)
    (fun b hb => lt_trans (henc b hb) (by norm_num))]
  rw [utf8Decode_ascii henc]
  simp only [caesar_decrypt_encrypt hp, Except.toOption]

/-- C1 (counterexample): with the non-ASCII payload "é" (code point 233,
which Python's `str.isalpha` accepts), the packet round trip does not
return the original payload: it decodes to "g" (code point 103), because
the Caesar shift maps the Latin-1 letter into ASCII and the inverse shift
lands elsewhere. -/
theorem C1_nonascii_counterexample :
    parse_packet (create_packet 0 1 [233]) = some (0, 1, [103]) ∧
    parse_packet (create_packet 0 1 [233]) ≠ some (0, 1, [233]) := by
  constructor
  · decide
  · decide

/-- Witness for `C1_roundtrip_ascii` at a concrete input. -/
theorem C1_roundtrip_ascii_witness :
    parse_packet (create_packet 7 2 [104, 105]) = some (7, 2, [104, 105]) :=
  C1_roundtrip_ascii 7 2 [104, 105] (by decide) (by decide) (by decide) (by decide)

theorem caesarChar_lt_unicode {c : Nat} (h : c < 1114112) :
    caesarChar 13 c < 1114112 := by
  unfold caesarChar
  split
  · dsimp only
    split
    · have h0 : (0 : Int) ≤ ((c : Int) - 65 + 13) % 26 :=
        Int.emod_nonneg _ (by norm_num)
      have h1 : ((c : Int) - 65 + 13) % 26 < 26 :=
        Int.emod_lt_of_pos _ (by norm_num)
      omega
    · have h0 : (0 : Int) ≤ ((c : Int) - 97 + 13) % 26 :=
        Int.emod_nonneg _ (by norm_num)
      have h1 : ((c : Int) - 97 + 13) % 26 < 26 :=
        Int.emod_lt_of_pos _ (by norm_num)
      omega
  · exact h

theorem caesar_encrypt_unicode {p : List Nat} (h : ∀ c ∈ p, c < 1114112) :
    ∀ c ∈ caesar_encrypt p 13, c < 1114112 := by
  intro c hc
  simp only [caesar_encrypt, List.mem_map] at hc
  obtain ⟨x, hx, rfl⟩ := hc
  exact caesarChar_lt_unicode (h x hx)

theorem utf8EncodeChar_lt {c b : Nat} (hc : c < 1114112)
    (hb : b ∈ utf8EncodeChar c) : b < 256 := by
  unfold utf8EncodeChar at hb
  split at hb <;> [skip; split at hb] <;> [skip; skip; split at hb] <;>
    simp only [List.mem_cons, List.not_mem_nil, or_false] at hb <;>
    rcases hb with h | h | h | h <;> try subst h
  all_goals omega

theorem utf8Encode_bytes_lt {p : List Nat} (h : ∀ c ∈ p, c < 1114112) :
    ∀ b ∈ utf8Encode p, b < 256 := by
  intro b hb
  simp only [utf8Encode, List.mem_flatMap] at hb
  obtain ⟨c, hc, hbc⟩ := hb
  exact utf8EncodeChar_lt (h c hc) hbc

theorem take4_set_stable (l : List Nat) (i : Nat) (b : Nat)
    (hi : i < 7 ∨ 11 ≤ i) :
    ((l.set i b).drop 7).take 4 = (l.drop 7).take 4 := by
  apply List.ext_getElem?
  intro n
  by_cases hn : n < 4
  · have hne : i ≠ 7 + n := by omega
    simp [List.getElem?_take, List.getElem?_drop, List.getElem?_set, hn, hne]
  · simp [List.getElem?_take, hn]

/-- C6 (confirmed): changing any single byte of a `create_packet` frame
inside the header region (offsets 0-6) or the payload region (offsets
≥ 11) to a different value makes `parse_packet`'s body fail with the
CRC32 checksum-mismatch error — barring a checksum collision, which is
the hypothesis `hcoll` that the CRC over the modified header+payload
region differs from the CRC over the original one. -/
theorem C6_single_byte_corruption (s t : Nat) (p : List Nat) (i b : Nat)
    (hs : s < 65536) (ht : t < 256) (hp : ∀ c ∈ p, c < 1114112)
    (hlen : (utf8Encode (caesar_encrypt p 13)).length < 2 ^ 56)
    (hi : i < 7 ∨ (11 ≤ i ∧ i < (create_packet s t p).length))
    (hb : b ≠ (create_packet s t p).getD i 0)
    (hcoll : crc32 (((create_packet s t p).set i b).take 7 ++
               ((create_packet s t p).set i b).drop 11) ≠
             crc32 ((create_packet s t p).take 7 ++
               (create_packet s t p).drop 11)) :
    parse_packetE ((create_packet s t p).set i b) = .error .checksumMismatch := by
  set enc := caesar_encrypt p 13 with henc_def
  set pb := utf8Encode enc with hpb_def
  set header := pack2 s ++ t :: pack4 pb.length with hheader_def
  set ck := crc32 (header ++ pb) with hck_def
  have hpkt : create_packet s t p = header ++ pack4 ck ++ pb := rfl
  have hence : ∀ c ∈ enc, c < 1114112 := caesar_encrypt_unicode hp
  have hpblt : ∀ c ∈ pb, c < 2 ^ 32 :=
    fun c hc => lt_trans (utf8Encode_bytes_lt hence c hc) (by norm_num)
  have hbytes : ∀ c ∈ header ++ pb, c < 2 ^ 32 := by
    intro c hc
    rw [hheader_def] at hc
    simp only [pack2, pack4, List.cons_append, List.nil_append, List.mem_append,
      List.mem_cons, List.not_mem_nil, or_false] at hc
    rcases hc with h | h | h | h | h | h | h | h <;>
      first
      | exact hpblt c h
      | (subst h; omega)
  have hcklt : ck < 2 ^ 32 := crc32_lt hbytes
  have h7 : header.length = 7 := header_length _ _ _
  have h4 : (pack4 ck).length = 4 := by simp [pack4]
  obtain ⟨ht7, hm4, hd11⟩ := frame_slices header (pack4 ck) pb h7 h4
  apply parse_mismatch _ ck
  · rw [take4_set_stable _ i b (by omega), hpkt, hm4, unpack4_pack4 hcklt]
  · have horig :
        crc32 ((create_packet s t p).take 7 ++ (create_packet s t p).drop 11) = ck := by
      rw [hpkt, ht7, hd11]
    exact fun hEq => hcoll (hEq.symm.trans horig.symm)

/-- Witness for `C6_single_byte_corruption` at a concrete input: flipping
byte 0 of the packet for (seq 0, type 1, payload "hi"). -/
theorem C6_single_byte_corruption_witness :
    parse_packetE ((create_packet 0 1 [104, 105]).set 0 1) =
      .error .checksumMismatch :=
  C6_single_byte_corruption 0 1 [104, 105] 0 1 (by decide) (by decide)
    (by decide) (by decide) (by decide) (by decide) (by decide)

/-- C8 (counterexample): truncating the packet for (seq 0, type 1,
payload "hi!") to 13 bytes leaves a frame whose header declares a 3-byte
payload (header bytes `[0,0,1,0,0,0,3]`) while only 2 payload bytes are
present (total length 13 = 11 + 2) — exactly the situation after a
bounded read hits EOF.  Decoding this frame fails with the checksum
mismatch, not with any distinct Malformed error: the embedding's error
type enumerates every exception `parse_packet` can raise, and none of
them is a declared-length check. -/
theorem C8_length_mismatch_counterexample :
    ((create_packet 0 1 [104, 105, 33]).take 13).take 7 = [0, 0, 1, 0, 0, 0, 3] ∧
    ((create_packet 0 1 [104, 105, 33]).take 13).length = 13 ∧
    parse_packetE ((create_packet 0 1 [104, 105, 33]).take 13) =
      .error .checksumMismatch := by
  refine ⟨by decide, by decide, by rfl⟩

/-- C8 (corrected, amended): `parse_packet` never compares the declared
payload length with the number of payload bytes actually present, and has
no Malformed error distinct from the checksum mismatch:
(a) whenever the stored checksum disagrees with the CRC32 of the
header+payload bytes actually present (as happens when a bounded read
truncates the payload), the failure is the checksum-mismatch error;
(b) a frame whose declared length field disagrees with the actual payload
byte count still decodes successfully, provided the stored checksum
matches the bytes actually present. -/
theorem C8_no_malformed_error :
    (∀ (pkt : List Nat) (ck : Nat),
        unpack4 ((pkt.drop 7).take 4) = some ck →
        ck ≠ crc32 (pkt.take 7 ++ pkt.drop 11) →
        parse_packetE pkt = .error .checksumMismatch) ∧
    (∀ (s t l : Nat) (pb : List Nat), s < 65536 → t < 256 → l < 2 ^ 56 →
        (∀ b ∈ pb, b < 128) → l ≠ pb.length →
        parse_packetE ((pack2 s ++ t :: pack4 l) ++
            pack4 (crc32 ((pack2 s ++ t :: pack4 l) ++ pb)) ++ pb) =
          .ok (s, t, caesar_decrypt pb 13)) := by
  constructor
  · exact fun pkt ck h4 hne => parse_mismatch pkt ck h4 hne
  · intro s t l pb hs ht hl hpb hne
    rw [parse_packetE_frame s t l pb hs (by omega) hl
      (fun b hb => lt_trans (hpb b hb) (by norm_num))]
    rw [utf8Decode_ascii hpb]

/-- Witness for `C8_no_malformed_error`: part (a) at an 11-byte frame of
zeros (stored checksum 0, computed checksum nonzero), part (b) at a frame
declaring length 7 with a single actual payload byte. -/
theorem C8_no_malformed_error_witness :
    parse_packetE [0, 0, 0, 0, 0, 0, 0, 0, 0, 0, 0] = .error .checksumMismatch ∧
    parse_packetE ((pack2 2 ++ 1 :: pack4 7) ++
        pack4 (crc32 ((pack2 2 ++ 1 :: pack4 7) ++ [104])) ++ [104]) =
      .ok (2, 1, caesar_decrypt [104] 13) :=
  ⟨C8_no_malformed_error.1 [0, 0, 0, 0, 0, 0, 0, 0, 0, 0, 0] 0
      (by decide) (by decide),
   C8_no_malformed_error.2 2 1 7 [104] (by decide) (by decide) (by decide)
      (by decide) (by decide)⟩

theorem unpack4_eq_none {bs : List Nat} (h : bs.length ≠ 4) :
    unpack4 bs = none := by
  unfold unpack4
  split
  · simp at h
  · rfl

/-- C9 (confirmed): `parse_packet` is total over arbitrary byte strings.
Its `try/except` wrapper turns every internal failure into `None`:
a packet shorter than 11 bytes yields `None` (the checksum unpack
raises), every error of the body yields `None`, and the result is always
either `None` or a (sequence_number, packet_type, payload) triple —
never a propagated exception. -/
theorem C9_parse_packet_total (pkt : List Nat) :
    (pkt.length < 11 → parse_packet pkt = none) ∧
    (∀ e, parse_packetE pkt = .error e → parse_packet pkt = none) ∧
    (parse_packet pkt = none ∨
      ∃ s t pl, parse_packet pkt = some (s, t, pl)) := by
  refine ⟨?_, ?_, ?_⟩
  · intro hlen
    have hlen4 : ((pkt.drop 7).take 4).length ≠ 4 := by
      simp only [List.length_take, List.length_drop]
      omega
    unfold parse_packet parse_packetE
    rw [unpack4_eq_none hlen4]
    rfl
  · intro e he
    unfold parse_packet
    rw [he]
    rfl
  · unfold parse_packet
    cases hE : parse_packetE pkt with
    | error e => left; rfl
    | ok v => right; exact ⟨v.1, v.2.1, v.2.2, rfl⟩

/-- Witness for `C9_parse_packet_total` on the empty byte string. -/
theorem C9_parse_packet_total_witness : parse_packet [] = none :=
  (C9_parse_packet_total []).1 (by decide)

/-! ## Helper lemmas about Python indexing and the board -/

theorem pyNorm_eq_none {len : Nat} {i : Int}
    (h : i < -(len : Int) ∨ (len : Int) ≤ i) : pyNorm len i = none := by
  by_cases hi : i < 0
  · simp only [pyNorm, if_pos hi]
    rw [if_neg (by omega)]
  · simp only [pyNorm, if_neg hi]
    rw [if_neg (by omega)]

theorem pyNorm_eq_some {len : Nat} {i : Int}
    (hlo : -(len : Int) ≤ i) (hhi : i < (len : Int)) :
    ∃ j : Nat, pyNorm len i = some j ∧ j < len := by
  by_cases hi : i < 0
  · refine ⟨(i + len).toNat, ?_, by omega⟩
    simp only [pyNorm, if_pos hi]
    rw [if_pos (by omega)]
  · refine ⟨i.toNat, ?_, by omega⟩
    simp only [pyNorm, if_neg hi]
    rw [if_pos (by omega)]

theorem pyIdx_eq_none {α : Type} {l : List α} {i : Int}
    (h : i < -(l.length : Int) ∨ (l.length : Int) ≤ i) : pyIdx l i = none := by
  unfold pyIdx
  rw [pyNorm_eq_none h]
  rfl

theorem pyIdx_mem {α : Type} {l : List α} {i : Int}
    (hlo : -(l.length : Int) ≤ i) (hhi : i < (l.length : Int)) :
    ∃ x ∈ l, pyIdx l i = some x := by
  obtain ⟨j, hj, hjl⟩ := pyNorm_eq_some hlo hhi
  refine ⟨l[j], List.getElem_mem hjl, ?_⟩
  unfold pyIdx
  rw [hj, Option.some_bind, List.getElem?_eq_getElem hjl]

theorem cellAt_some {b : Board} (hwf : b.WF) {row col : Int}
    (hr0 : 0 ≤ row) (hr1 : row < (b.size : Int))
    (hc0 : 0 ≤ col) (hc1 : col < (b.size : Int)) :
    ∃ ch, b.cellAt row col = some ch := by
  obtain ⟨h1, h2, -, -⟩ := hwf
  obtain ⟨r, hrmem, hr⟩ := pyIdx_mem (l := b.hidden_grid) (i := row)
    (by rw [h1]; omega) (by rw [h1]; omega)
  have hrlen := h2 r hrmem
  obtain ⟨x, -, hx⟩ := pyIdx_mem (l := r) (i := col)
    (by rw [hrlen]; omega) (by rw [hrlen]; omega)
  exact ⟨x, by unfold Board.cellAt; rw [hr, Option.some_bind, hx]⟩

/-! ## Claim theorems about the board model (C3, C4, C5, C10) -/

/-- C3 (confirmed): firing at a cell already revealed as a hit ('X') or
a miss ('o') returns the `('already_shot', None)` outcome and leaves the
entire board state — both grids and every ship's remaining-position set —
unchanged; repeating the call yields the same result (idempotence). -/
theorem C3_already_shot_idempotent (b : Board) (row col : Int)
    (h : b.cellAt row col = some 'X' ∨ b.cellAt row col = some 'o') :
    b.fire_at row col = (.ok ("already_shot", none), b) ∧
    ((b.fire_at row col).2).fire_at row col = b.fire_at row col := by
  have hmain : b.fire_at row col = (.ok ("already_shot", none), b) := by
    unfold Board.fire_at
    rcases h with h | h <;> rw [h] <;> rfl
  refine ⟨hmain, ?_⟩
  rw [hmain]
  exact hmain

/-- Witness for `C3_already_shot_idempotent` on a 2×2 board whose (0,0)
cell is a revealed hit. -/
theorem C3_already_shot_idempotent_witness :
    Board.fire_at ⟨2, [['X', '.'], ['.', '.']], [['X', '.'], ['.', '.']], []⟩ 0 0 =
      (.ok ("already_shot", none),
        ⟨2, [['X', '.'], ['.', '.']], [['X', '.'], ['.', '.']], []⟩) :=
  (C3_already_shot_idempotent
    ⟨2, [['X', '.'], ['.', '.']], [['X', '.'], ['.', '.']], []⟩ 0 0
    (Or.inl (by rfl))).1

/-- C4 (counterexample): the claim says `fire_at` fails with a bounds
error for every negative coordinate, but firing at row -1 of a fresh
10×10 board succeeds: Python's negative indexing wraps to the last row
and the shot resolves as a miss (mutating the board). -/
theorem C4_negative_index_counterexample :
    (Board.fire_at (Board.init 10) (-1) 0).1 = .ok ("miss", none) := by rfl

/-- C4 (corrected, amended): `fire_at` fails with the bounds-error
`ValueError` — leaving the whole board unchanged — exactly for
coordinates outside Python's index range [-size, size): a row outside
that range, or a row inside it with a column outside it.  Negative
coordinates in [-size, -1] do not fail; they wrap around to the far end
of the grid (see the counterexample). -/
theorem C4_out_of_bounds_error (b : Board) (row col : Int) (hwf : b.WF)
    (h : (row < -(b.size : Int) ∨ (b.size : Int) ≤ row) ∨
         ((-(b.size : Int) ≤ row ∧ row < (b.size : Int)) ∧
          (col < -(b.size : Int) ∨ (b.size : Int) ≤ col))) :
    b.fire_at row col = (.error "Firing coordinate out of bounds.", b) := by
  obtain ⟨h1, h2, -, -⟩ := hwf
  have hcell : b.cellAt row col = none := by
    unfold Board.cellAt
    rcases h with h | ⟨hrow, hcol⟩
    · rw [pyIdx_eq_none (by rw [h1]; exact h)]
      rfl
    · obtain ⟨r, hrmem, hr⟩ := pyIdx_mem (l := b.hidden_grid) (i := row)
        (by rw [h1]; omega) (by rw [h1]; omega)
      rw [hr, Option.some_bind]
      exact pyIdx_eq_none (by rw [h2 r hrmem]; exact hcol)
  unfold Board.fire_at
  rw [hcell]

/-- Witness for `C4_out_of_bounds_error`: row 10 on a fresh 10×10 board. -/
theorem C4_out_of_bounds_error_witness :
    Board.fire_at (Board.init 10) 10 0 =
      (.error "Firing coordinate out of bounds.", Board.init 10) :=
  C4_out_of_bounds_error (Board.init 10) 10 0
    (by refine ⟨by rfl, ?_, by rfl, ?_⟩ <;> decide)
    (Or.inl (Or.inr (by decide)))

theorem list_all_congr {α : Type} {l : List α} {f g : α → Bool}
    (h : ∀ x ∈ l, f x = g x) : l.all f = l.all g := by
  induction l with
  | nil => rfl
  | cons a t ih =>
    simp only [List.all_cons, h a (List.mem_cons_self a t),
      ih (fun x hx => h x (List.mem_cons_of_mem a hx))]

theorem list_all_map {α β : Type} (l : List α) (g : α → β) (p : β → Bool) :
    (l.map g).all p = l.all (fun a => p (g a)) := by
  induction l with
  | nil => rfl
  | cons a t ih => simp [List.all_cons, ih]

theorem checkRun_eq (b : Board) (hwf : b.WF) (cells : List (Int × Int))
    (h : ∀ rc ∈ cells, 0 ≤ rc.1 ∧ rc.1 < (b.size : Int) ∧
         0 ≤ rc.2 ∧ rc.2 < (b.size : Int)) :
    b.checkRun cells =
      .ok (cells.all fun rc => b.cellAt rc.1 rc.2 == some '.') := by
  induction cells with
  | nil => rfl
  | cons hd tl ih =>
    obtain ⟨r, c⟩ := hd
    obtain ⟨h1, h2, h3, h4⟩ := h (r, c) (List.mem_cons_self _ _)
    obtain ⟨ch, hch⟩ := cellAt_some hwf h1 h2 h3 h4
    have ih2 := ih (fun rc hrc => h rc (List.mem_cons_of_mem _ hrc))
    show (match b.cellAt r c with
      | none => Except.error "IndexError"
      | some ch => if ch ≠ '.' then .ok false else b.checkRun tl) = _
    rw [hch]
    dsimp only
    by_cases hdot : ch = '.'
    · rw [if_neg (by simp [hdot])]
      rw [ih2]
      simp [List.all_cons, hch, hdot]
    · rw [if_pos (by simpa using hdot)]
      simp [List.all_cons, hch, hdot]

/-- C5 (counterexample): the claim's "true iff the full run is in bounds
and Water" fails at a negative start column: on a fresh 10×10 board,
`can_place_ship(0, -1, 1, horizontal)` returns `True` (Python's negative
index wraps to column 9), yet the run cell (0, -1) does not lie within
the grid bounds, so the spec condition is false. -/
theorem C5_negative_index_counterexample :
    Board.can_place_ship (Board.init 10) 0 (-1) 1 0 = .ok true ∧
    canPlaceSpec (Board.init 10) 0 (-1) 1 0 = false := ⟨by rfl, by rfl⟩

/-- C5 (corrected, amended): for starting coordinates inside the grid
(0 ≤ row < size and 0 ≤ col < size), `can_place_ship` returns exactly
the spec's condition: true iff the full run of `ship_size` cells in the
given orientation lies within the grid bounds and every such cell is
currently Water.  (Outside that range the claim fails: negative start
indices wrap around — see the counterexample — and an out-of-range
cross-axis coordinate raises instead of returning false.) -/
theorem C5_can_place_iff (b : Board) (row col : Int) (ship_size : Nat)
    (orientation : Nat) (hwf : b.WF)
    (hr0 : 0 ≤ row) (hr1 : row < (b.size : Int))
    (hc0 : 0 ≤ col) (hc1 : col < (b.size : Int)) :
    b.can_place_ship row col ship_size orientation =
      .ok (canPlaceSpec b row col ship_size orientation) := by
  by_cases hori : orientation = 0
  · subst hori
    unfold Board.can_place_ship
    rw [if_pos rfl]
    by_cases hover : col + (ship_size : Int) > (b.size : Int)
    · rw [if_pos hover]
      have hn : 1 ≤ ship_size := by omega
      have hfalse : canPlaceSpec b row col ship_size 0 = false := by
        unfold canPlaceSpec runCells
        rw [if_pos rfl, list_all_map, List.all_eq_false]
        refine ⟨ship_size - 1, List.mem_range.2 (by omega), ?_⟩
        intro hcontra
        simp only [Bool.and_eq_true, decide_eq_true_eq] at hcontra
        omega
      rw [hfalse]
    · rw [if_neg hover]
      have hcells : ∀ rc ∈ runCells row col ship_size 0,
          0 ≤ rc.1 ∧ rc.1 < (b.size : Int) ∧
          0 ≤ rc.2 ∧ rc.2 < (b.size : Int) := by
        intro rc hrc
        unfold runCells at hrc
        rw [if_pos rfl] at hrc
        obtain ⟨k, hk, rfl⟩ := List.mem_map.1 hrc
        rw [List.mem_range] at hk
        exact ⟨hr0, hr1, by omega, by omega⟩
      rw [checkRun_eq b hwf _ hcells]
      unfold canPlaceSpec runCells
      rw [if_pos rfl, list_all_map, list_all_map]
      congr 1
      apply list_all_congr
      intro k hk
      rw [List.mem_range] at hk
      simp [hr0, hr1, show (0 : Int) ≤ col + (k : Int) from by omega,
        show col + (k : Int) < (b.size : Int) from by omega]
  · unfold Board.can_place_ship
    rw [if_neg hori]
    by_cases hover : row + (ship_size : Int) > (b.size : Int)
    · rw [if_pos hover]
      have hn : 1 ≤ ship_size := by omega
      have hfalse : canPlaceSpec b row col ship_size orientation = false := by
        unfold canPlaceSpec runCells
        rw [if_neg hori, list_all_map, List.all_eq_false]
        refine ⟨ship_size - 1, List.mem_range.2 (by omega), ?_⟩
        intro hcontra
        simp only [Bool.and_eq_true, decide_eq_true_eq] at hcontra
        omega
      rw [hfalse]
    · rw [if_neg hover]
      have hcells : ∀ rc ∈ runCells row col ship_size orientation,
          0 ≤ rc.1 ∧ rc.1 < (b.size : Int) ∧
          0 ≤ rc.2 ∧ rc.2 < (b.size : Int) := by
        intro rc hrc
        unfold runCells at hrc
        rw [if_neg hori] at hrc
        obtain ⟨k, hk, rfl⟩ := List.mem_map.1 hrc
        rw [List.mem_range] at hk
        exact ⟨by omega, by omega, hc0, hc1⟩
      have hrun : runCells row col ship_size 1 =
          runCells row col ship_size orientation := by
        unfold runCells
        rw [if_neg hori, if_neg (by omega)]
      rw [hrun, checkRun_eq b hwf _ hcells]
      unfold canPlaceSpec runCells
      rw [if_neg hori, list_all_map, list_all_map]
      congr 1
      apply list_all_congr
      intro k hk
      rw [List.mem_range] at hk
      simp [hc0, hc1, show (0 : Int) ≤ row + (k : Int) from by omega,
        show row + (k : Int) < (b.size : Int) from by omega]

/-- Witness for `C5_can_place_iff`: a horizontal length-4 run from (3,5)
on a fresh 10×10 board. -/
theorem C5_can_place_iff_witness :
    Board.can_place_ship (Board.init 10) 3 5 4 0 =
      .ok (canPlaceSpec (Board.init 10) 3 5 4 0) :=
  C5_can_place_iff (Board.init 10) 3 5 4 0
    (by refine ⟨by rfl, ?_, by rfl, ?_⟩ <;> decide)
    (by decide) (by decide) (by decide) (by decide)

/-- C10 (confirmed): `all_ships_sunk` returns `True` on any board whose
placed-ships list is empty — in particular on a freshly constructed
`Board` before any placement — so the win condition holds vacuously
against a board with no ships. -/
theorem C10_all_ships_sunk_vacuous (b : Board) (h : b.placed_ships = []) :
    b.all_ships_sunk = true ∧
    ∀ n : Nat, (Board.init n).all_ships_sunk = true := by
  constructor
  · unfold Board.all_ships_sunk
    rw [h]
    rfl
  · intro n
    rfl

/-- Witness for `C10_all_ships_sunk_vacuous` on a fresh 10×10 board. -/
theorem C10_all_ships_sunk_vacuous_witness :
    (Board.init 10).all_ships_sunk = true :=
  (C10_all_ships_sunk_vacuous (Board.init 10) (by rfl)).1

/-! ## Claim theorems about the lobby (C7) -/

/-- C7 (confirmed): a reconnection attempt in the lobby whose
classification reply is a digit string naming a user id present in
`disconnected_players`, but whose supplied session token differs from the
token stored for that id in the active-session registry (including the
case where no token is stored: a Python str never equals None), is
answered with "Invalid session token. Reconnection denied." and the
connection is closed; in particular the resume path — the only way the
saved match state and Turn state can be restored through a connection —
is never started for it. -/
theorem C7_wrong_token_rejected (st : LobbyState) (next_id : Nat)
    (ui tk : String)
    (hdig : pyIsDigitStr ui = true)
    (hdisc : strToNat ui ∈ st.disconnected_players)
    (htok : ∀ t, lookupToken st (strToNat ui) = some t → tk ≠ t) :
    classifyConnection st next_id (some ui) (some tk) = .rejectClose ∧
    ∀ uid, classifyConnection st next_id (some ui) (some tk) ≠
      .startResume uid := by
  have hmain : classifyConnection st next_id (some ui) (some tk) =
      .rejectClose := by
    unfold classifyConnection
    dsimp only
    rw [if_pos ⟨hdig, hdisc⟩]
    cases hlt : lookupToken st (strToNat ui) with
    | none => rfl
    | some t =>
      dsimp only
      rw [if_neg (htok t hlt)]
  exact ⟨hmain, fun uid h => by rw [hmain] at h; exact LobbyAction.noConfusion h⟩

/-- Witness for `C7_wrong_token_rejected`: user id 5 is disconnected,
its stored token is "abc", and the reconnection supplies "zzz". -/
theorem C7_wrong_token_rejected_witness :
    classifyConnection ⟨[5], [(5, "abc")]⟩ 7 (some "5") (some "zzz") =
      .rejectClose :=
  (C7_wrong_token_rejected ⟨[5], [(5, "abc")]⟩ 7 "5" "zzz" (by decide)
    (by decide)
    (fun t ht => by
      have h5 : lookupToken ⟨[5], [(5, "abc")]⟩ (strToNat "5") = some "abc" := rfl
      rw [h5] at ht
      cases ht
      decide)).1

/-! ## Claim theorems about the turn engine (C2) -/

theorem step_absorb {s : GameSt} (h : s.outcome.isSome) (e : GEvent) :
    step s e = s := by
  unfold step
  rw [if_pos h]

theorem run_absorb {s : GameSt} (h : s.outcome.isSome) (evs : List GEvent) :
    run s evs = s := by
  induction evs with
  | nil => rfl
  | cons e es ih =>
    show run (step s e) es = s
    rw [step_absorb h]
    exact ih

theorem timeoutPlayer2_timeout1 (s : GameSt) :
    (timeoutPlayer2 s).timeout1 = s.timeout1 := by
  unfold timeoutPlayer2
  dsimp only
  split_ifs <;> rfl

theorem timeoutPlayer1_timeout2 (s : GameSt) :
    (timeoutPlayer1 s).timeout2 = s.timeout2 := by
  unfold timeoutPlayer1
  dsimp only
  split_ifs <;> rfl

theorem guessPlayer2_timeout1 (s : GameSt) (g : String) :
    (guessPlayer2 s g).timeout1 = s.timeout1 := by
  unfold guessPlayer2
  dsimp only
  split_ifs <;> try rfl
  split
  · rfl
  · split
    · rfl
    · split_ifs <;> rfl

theorem guessPlayer1_timeout2 (s : GameSt) (g : String) :
    (guessPlayer1 s g).timeout2 = s.timeout2 := by
  unfold guessPlayer1
  dsimp only
  split_ifs <;> try rfl
  split
  · rfl
  · split
    · rfl
    · split_ifs <;> rfl

theorem turnBranch2_timeout1 (s : GameSt)
    (packet : Option (Nat × Nat × Option String))
    (hreal : ∀ seq ty, packet ≠ some (seq, ty, none)) :
    (turnBranch2 s packet).timeout1 = s.timeout1 := by
  match packet with
  | none => exact timeoutPlayer2_timeout1 s
  | some (seq, ty, none) => exact absurd rfl (hreal seq ty)
  | some (seq, ty, some g) => exact guessPlayer2_timeout1 s g

theorem turnBranch1_timeout2 (s : GameSt)
    (packet : Option (Nat × Nat × Option String)) :
    (turnBranch1 s packet).timeout2 = s.timeout2 := by
  match packet with
  | none => exact timeoutPlayer1_timeout2 s
  | some (seq, ty, none) => exact timeoutPlayer1_timeout2 s
  | some (seq, ty, some g) => exact guessPlayer1_timeout2 s g

/-- C2 (confirmed): in the turn-engine loop, two consecutive timeouts by
the same player `p` end the match with a forfeit against `p`, and `p` is
never issued a third fire prompt.  Precisely, from any running state in
`p`'s turn:
(1) a first timeout (`receive_packet` returning None with
`timeout_counts[p] = 0`) keeps the game running, sets the counter to 1
and hands the turn to the opponent;
(2) a timeout with the counter already at 1 — i.e. a second timeout not
separated from the first by any counter-resetting action of `p` — ends
the match with `forfeit p`, after which no prompt is issued to anyone;
(3) after that second timeout, no sequence of further events ever yields
a state that prompts any player — never a third prompt;
(4) consecutiveness is well defined: while it is the opponent's turn, no
event the engine can actually receive (packets carry a real string
payload or are None — `parse_packet` never returns a None payload, see
`parse_packetE`) changes `p`'s timeout counter. -/
theorem C2_two_timeouts_forfeit (s : GameSt) (p : Nat)
    (hp : p = 1 ∨ p = 2) (hout : s.outcome = none)
    (hph : s.phase = .playing) (hturn : s.current_turn = p) :
    (tcount s p = 0 →
      (step s (.recv none)).outcome = none ∧
      tcount (step s (.recv none)) p = 1 ∧
      (step s (.recv none)).current_turn = 3 - p) ∧
    (tcount s p = 1 →
      (step s (.recv none)).outcome = some (.forfeit p) ∧
      ∀ q, promptsPlayer (step s (.recv none)) q = false) ∧
    (tcount s p = 1 → ∀ evs q,
      promptsPlayer (run (step s (.recv none)) evs) q = false) ∧
    (∀ s2 : GameSt, s2.current_turn = 3 - p →
      ∀ packet, (∀ seq ty, packet ≠ some (seq, ty, none)) →
        tcount (step s2 (.recv packet)) p = tcount s2 p) := by
  rcases hp with rfl | rfl
  · refine ⟨?_, ?_, ?_, ?_⟩
    · intro h0
      have ht : s.timeout1 = 0 := by simpa [tcount] using h0
      simp [step, hout, hph, hturn, turnBranch1, timeoutPlayer1, ht, tcount]
    · intro h1
      have ht : s.timeout1 = 1 := by simpa [tcount] using h1
      have hforf : (step s (.recv none)).outcome = some (.forfeit 1) := by
        simp [step, hout, hph, hturn, turnBranch1, timeoutPlayer1, ht]
      exact ⟨hforf, fun q => by simp [promptsPlayer, hforf]⟩
    · intro h1 evs q
      have ht : s.timeout1 = 1 := by simpa [tcount] using h1
      have hforf : (step s (.recv none)).outcome = some (.forfeit 1) := by
        simp [step, hout, hph, hturn, turnBranch1, timeoutPlayer1, ht]
      rw [run_absorb (by rw [hforf]; rfl) evs]
      simp [promptsPlayer, hforf]
    · intro s2 hturn2 packet hreal
      by_cases ho : s2.outcome.isSome
      · rw [step_absorb ho]
      · unfold step
        rw [if_neg ho]
        cases hph2 : s2.phase with
        | reconnecting q => rfl
        | playing =>
          dsimp only
          rw [if_neg (by rw [hturn2]; decide)]
          simp only [tcount, if_pos rfl]
          exact turnBranch2_timeout1 s2 packet hreal
  · refine ⟨?_, ?_, ?_, ?_⟩
    · intro h0
      have ht : s.timeout2 = 0 := by simpa [tcount] using h0
      simp [step, hout, hph, hturn, turnBranch2, timeoutPlayer2, ht, tcount]
    · intro h1
      have ht : s.timeout2 = 1 := by simpa [tcount] using h1
      have hforf : (step s (.recv none)).outcome = some (.forfeit 2) := by
        simp [step, hout, hph, hturn, turnBranch2, timeoutPlayer2, ht]
      exact ⟨hforf, fun q => by simp [promptsPlayer, hforf]⟩
    · intro h1 evs q
      have ht : s.timeout2 = 1 := by simpa [tcount] using h1
      have hforf : (step s (.recv none)).outcome = some (.forfeit 2) := by
        simp [step, hout, hph, hturn, turnBranch2, timeoutPlayer2, ht]
      rw [run_absorb (by rw [hforf]; rfl) evs]
      simp [promptsPlayer, hforf]
    · intro s2 hturn2 packet hreal
      by_cases ho : s2.outcome.isSome
      · rw [step_absorb ho]
      · unfold step
        rw [if_neg ho]
        cases hph2 : s2.phase with
        | reconnecting q => rfl
        | playing =>
          dsimp only
          rw [if_pos (by rw [hturn2])]
          simp only [tcount, if_neg (by decide : ¬(2 : Nat) = 1)]
          exact turnBranch1_timeout2 s2 packet


/-- Witness for `C2_two_timeouts_forfeit`: Player 1's turn with
`timeout_counts[1] = 1`; the second consecutive timeout forfeits the
match against Player 1. -/
theorem C2_two_timeouts_forfeit_witness :
    (step ⟨1, 1, 0, Board.init 10, Board.init 10, Board.init 10,
        Board.init 10, .playing, none⟩ (.recv none)).outcome =
      some (.forfeit 1) :=
  ((C2_two_timeouts_forfeit ⟨1, 1, 0, Board.init 10, Board.init 10,
      Board.init 10, Board.init 10, .playing, none⟩ 1 (Or.inl rfl) rfl rfl
      rfl).2.1 rfl).1

end Battleship
